import Mathlib

/-!
Verification of the EchoKit console BLE provisioning core.

The definitions below are a shallow embedding of the provisioning subsystem:

* `BluetoothService` methods from src/frontend/src/services/bluetooth.ts
  (`connect`, `disconnect`, `isConnected`, `getMacAddress`, `getDeviceName`,
  `writeConfig`, `writeBackgroundImage`, `resetDevice`) become pure Lean
  functions over an explicit `BTState` and an environment `Env` of oracle
  outcomes (which characteristic writes succeed, what the registration call
  returns, the clock value, and so on).
* The session handlers of the device-registration modal component
  (`handleConnectDevice`, `handleWriteConfig`, `handleCancel`) become
  functions from the environment and the current React state to the next
  state, together with the list of transport events (characteristic writes,
  chunk writes, pacing delays, progress callbacks, disconnect calls) and UI
  toasts that the run produces, in order.

Fallible awaits are modelled by consulting the environment: the k-th
characteristic write issued in a session succeeds iff `env.writeOk k`.
-/

namespace EchoKit

/-- Byte payloads are lists of bytes (values are irrelevant to the protocol). -/
abbrev Bytes := List Nat

/-! ## Constants from bluetooth.ts -/

def CHUNK_SIZE : Nat := 512

def CHUNK_DELAY : Nat := 50

def BLE_CHARACTERISTIC_MAC_ADDRESS : String := "a1b2c3d4-e5f6-4a7b-8c9d-0e1f2a3b4c5d"

def BLE_CHARACTERISTIC_SSID : String := "1fda4d6e-2f14-42b0-96fa-453bed238375"

def BLE_CHARACTERISTIC_PASSWORD : String := "a987ab18-a940-421a-a1d7-b94ee22bccbe"

def BLE_CHARACTERISTIC_SERVER_URL : String := "cef520a9-bcb5-4fc6-87f7-82804eee2b20"

def BLE_CHARACTERISTIC_BACKGROUND_IMAGE : String := "d1f3b2c4-5e6f-4a7b-8c9d-0e1f2a3b4c5d"

def BLE_CHARACTERISTIC_RESET : String := "f0e1d2c3-b4a5-6789-0abc-def123456789"

/-! ## Data model -/

/-- A browser `BluetoothDevice`: `id : string`, `name?: string`. -/
structure DeviceInfo where
  id : String
  name : Option String
deriving DecidableEq

/-- The `BluetoothService` instance fields: `device`, `server`, `service`.
`serverConnected = none` models `server === null`; `some c` models a server
object whose `connected` flag is `c`.  `servicePresent` models
`service !== null`. -/
structure BTState where
  device : Option DeviceInfo
  serverConnected : Option Bool
  servicePresent : Bool
deriving DecidableEq

/-- Observable transport-level actions, in the order the session performs
them.  `writeChar` is a single characteristic write of a text value
(`writeCharacteristic` / the reset command), `writeChunk` is one bounded
frame of the chunked background-image transfer, `delay` is the pacing wait,
`progress` is an invocation of the UI progress callback, `disconnect` is a
call to `BluetoothService.disconnect()`. -/
inductive Event where
  | writeChar (uuid : String) (value : String)
  | writeChunk (index : Nat) (data : Bytes)
  | delay (ms : Nat)
  | progress (p : ℚ)
  | disconnect
deriving DecidableEq

/-- UI toast messages (`message.success` / `message.warning` / `message.error`). -/
inductive Toast where
  | success (s : String)
  | warning (s : String)
  | error (s : String)
deriving DecidableEq

/-- Result of the remote `deviceService.registerDevice` call: either it
resolves, or it rejects with an HTTP status and an error message. -/
inductive RegResult where
  | ok
  | httpErr (status : Nat) (msg : String)
deriving DecidableEq

/-- Oracle environment for one session run: browser capability, the outcome
of device selection and GATT connection, whether the MAC characteristic read
succeeds and what it yields, the current time (`Date.now()`), the remote
registration outcome, and which characteristic write attempts succeed
(indexed by the order in which the session issues them). -/
structure Env where
  supported : Bool
  connectResult : Option DeviceInfo
  macReadOk : Bool
  macValue : String
  now : Nat
  reg : RegResult
  writeOk : Nat → Bool

/-- React state of the registration modal (the fields the claims are about:
`currentStep`, `errorMessage`, `loading`, `deviceMac`, `deviceBluetoothName`). -/
structure SessionState where
  currentStep : Nat
  errorMessage : Option String
  loading : Bool
  deviceMac : String
  deviceName : String
deriving DecidableEq

/-! ## BluetoothService -/

/-- Models `BluetoothService.isSupported()`. -/
def isSupported (env : Env) : Bool := env.supported

/-- Models `BluetoothService.isConnected()`: `this.server?.connected ?? false`. -/
def isConnected (bt : BTState) : Bool := bt.serverConnected.getD false

/-- Models `BluetoothService.disconnect()`: physically disconnects when the server
reports connected, and always clears `device`, `server` and `service`. -/
def disconnectFn (_bt : BTState) : BTState :=
  { device := none, serverConnected := none, servicePresent := false }

/-- Models `BluetoothService.connect()`: throws the unsupported message when the
capability probe fails; otherwise either device selection plus GATT
negotiation succeeds (the environment supplies the chosen device, the server
is connected and the service bound) or the catch block rethrows the generic
connect-failure message. -/
def connect (env : Env) (bt : BTState) : BTState × Option String :=
  if isSupported env = false then
    (bt, some "当前浏览器不支持 Web Bluetooth API")
  else
    match env.connectResult with
    | none => (bt, some "连接设备失败，请确保设备已开机并处于配对模式")
    | some d =>
        ({ device := some d, serverConnected := some true, servicePresent := true }, none)

/-- Models `BluetoothService.getMacAddress()`: read the MAC characteristic; on any
failure fall back to `this.device?.id || (template of name and Date.now())`.
A JS string is falsy exactly when it is empty, and `this.device?.name`
interpolates as the text undefined when the device or its name is absent. -/
def getMacAddress (env : Env) (bt : BTState) : Except String String :=
  if bt.servicePresent = false then
    Except.error "请先连接设备"
  else if env.macReadOk then
    Except.ok env.macValue
  else
    match bt.device with
    | some d =>
        if d.id = "" then
          Except.ok ((d.name.getD "undefined") ++ "-" ++ toString env.now)
        else
          Except.ok d.id
    | none => Except.ok ("undefined" ++ "-" ++ toString env.now)

/-- Models `BluetoothService.getDeviceName()`: `this.device.name || unknown-device`. -/
def getDeviceName (bt : BTState) : Except String String :=
  match bt.device with
  | none => Except.error "请先连接设备"
  | some d =>
      Except.ok (match d.name with
        | some n => if n = "" then "未知设备" else n
        | none => "未知设备")

/-- Models `writeCharacteristic(uuid, value)`: one characteristic write attempt,
consuming one oracle index; the attempt itself always appears in the trace,
the Bool records whether the awaited write resolved. -/
def writeCharacteristic (env : Env) (ctr : Nat) (uuid value : String) :
    List Event × Nat × Bool :=
  ([Event.writeChar uuid value], ctr + 1, env.writeOk ctr)

/-- Computes `totalChunks = Math.ceil(totalBytes / CHUNK_SIZE)`. -/
def totalChunksOf (n : Nat) : Nat := (n + CHUNK_SIZE - 1) / CHUNK_SIZE

/-- Computes `arrayBuffer.slice(start, end)` for chunk `i`:
`start = i * CHUNK_SIZE`, `end = Math.min(start + CHUNK_SIZE, totalBytes)`. -/
def chunkSlice (payload : Bytes) (i : Nat) : Bytes :=
  (payload.drop (i * CHUNK_SIZE)).take CHUNK_SIZE

/-- The chunk loop of `writeBackgroundImage`, desugared to structural
recursion on the number of remaining iterations (`rem = totalChunks - i`).
Each iteration writes chunk `i` (consuming oracle index `ctr`); on success
it reports progress `scale ((i+1)/totalChunks)` (the source threads the
combined-progress scaling in through the callback) and, when `i` is not the
last index (`i < totalChunks - 1`), waits the pacing delay before the next
frame; on failure it stops at once.  Returns the event trace, the next
oracle index, and whether every write resolved. -/
def chunkLoopGo (env : Env) (scale : ℚ → ℚ) (payload : Bytes) (tc : Nat) :
    Nat → Nat → Nat → List Event × Nat × Bool
  | 0, _, ctr => ([], ctr, true)
  | rem + 1, i, ctr =>
    if env.writeOk ctr then
      let evs := [Event.writeChunk i (chunkSlice payload i),
                  Event.progress (scale (((i : ℚ) + 1) / (tc : ℚ)))]
        ++ (if i < tc - 1 then [Event.delay CHUNK_DELAY] else [])
      let r := chunkLoopGo env scale payload tc rem (i + 1) (ctr + 1)
      (evs ++ r.1, r.2.1, r.2.2)
    else
      ([Event.writeChunk i (chunkSlice payload i)], ctr + 1, false)

/-- Models `writeBackgroundImage(file, onProgress)`: split the payload into
`ceil(n/512)` frames and stream them through the chunk loop. -/
def writeBackgroundImage (env : Env) (scale : ℚ → ℚ) (payload : Bytes) (ctr : Nat) :
    List Event × Nat × Bool :=
  chunkLoopGo env scale payload (totalChunksOf payload.length)
    (totalChunksOf payload.length) 0 ctr

/-- The constant error message `writeConfig` rethrows for any failure. -/
def writeConfigFailMsg : String := "写入配置失败，请重试"

/-- The `BluetoothConfig` object handed to `writeConfig`: the three scalar
fields and the optional background-image payload. -/
structure BluetoothConfig where
  ssid : String
  password : String
  serverUrl : String
  backgroundImage : Option Bytes
deriving DecidableEq

/-- Models `BluetoothService.writeConfig(config, onProgress)`: writes SSID,
password and server URL in that order, reporting `completedSteps/totalSteps`
after each (`totalSteps` is 4 with a background image, else 3); then, if an
image is present, streams it through `writeBackgroundImage` with the
combined scaling `(3 + imgProgress)/totalSteps` and reports the final step.
Any write failure aborts and surfaces the constant generic message. -/
def writeConfig (env : Env) (cfg : BluetoothConfig) (ctr : Nat) :
    List Event × Nat × Option String :=
  let totalSteps : Nat := match cfg.backgroundImage with | some _ => 4 | none => 3
  let w1 := writeCharacteristic env ctr BLE_CHARACTERISTIC_SSID cfg.ssid
  if w1.2.2 = false then (w1.1, w1.2.1, some writeConfigFailMsg) else
  let t1 := w1.1 ++ [Event.progress ((1 : ℚ) / (totalSteps : ℚ))]
  let w2 := writeCharacteristic env w1.2.1 BLE_CHARACTERISTIC_PASSWORD cfg.password
  if w2.2.2 = false then (t1 ++ w2.1, w2.2.1, some writeConfigFailMsg) else
  let t2 := t1 ++ w2.1 ++ [Event.progress ((2 : ℚ) / (totalSteps : ℚ))]
  let w3 := writeCharacteristic env w2.2.1 BLE_CHARACTERISTIC_SERVER_URL cfg.serverUrl
  if w3.2.2 = false then (t2 ++ w3.1, w3.2.1, some writeConfigFailMsg) else
  let t3 := t2 ++ w3.1 ++ [Event.progress ((3 : ℚ) / (totalSteps : ℚ))]
  match cfg.backgroundImage with
  | none => (t3, w3.2.1, none)
  | some p =>
      let w4 := writeBackgroundImage env
        (fun q => (((3 : ℚ) + q) / (totalSteps : ℚ))) p w3.2.1
      if w4.2.2 = false then (t3 ++ w4.1, w4.2.1, some writeConfigFailMsg)
      else (t3 ++ w4.1 ++ [Event.progress ((4 : ℚ) / (totalSteps : ℚ))], w4.2.1, none)

/-- Models `BluetoothService.resetDevice()`: writes the text RESET to the reset
characteristic; on failure the catch rethrows the reset-failure message. -/
def resetDevice (env : Env) (ctr : Nat) : List Event × Nat × Option String :=
  ([Event.writeChar BLE_CHARACTERISTIC_RESET "RESET"], ctr + 1,
    if env.writeOk ctr then none else some "重启设备失败")

/-! ## Session handlers of the registration modal -/

/-- Result of running one session handler: the bluetooth state, the React
state, the transport event trace and the toasts it produced. -/
structure HandleResult where
  bt : BTState
  ui : SessionState
  trace : List Event
  toasts : List Toast
deriving DecidableEq

/-- Models `handleWriteConfig(values)`: register the device remotely first; a 409
response marks it already registered and jumps straight to the final step,
skipping every write and leaving the connection alone; any other rejection
surfaces its message.  For a new device: `writeConfig`, then `resetDevice`,
then `disconnect()`, then the final step; the catch block records the thrown
message and the finally block clears `loading`. -/
def handleWriteConfig (env : Env) (bt : BTState) (cfg : BluetoothConfig)
    (ui : SessionState) : HandleResult :=
  let ui0 : SessionState := { ui with loading := true, errorMessage := none }
  match env.reg with
  | RegResult.httpErr status msg =>
      if status = 409 then
        { bt := bt
          ui := { ui0 with currentStep := 3, loading := false }
          trace := []
          toasts := [Toast.warning "设备已注册过，将跳过配置写入步骤"] }
      else
        { bt := bt
          ui := { ui0 with
                    errorMessage := some (if msg = "" then "写入配置失败，请重试" else msg)
                    loading := false }
          trace := []
          toasts := [Toast.error "写入配置失败"] }
  | RegResult.ok =>
      let wc := writeConfig env cfg 0
      match wc.2.2 with
      | some e =>
          { bt := bt
            ui := { ui0 with errorMessage := some e, loading := false }
            trace := wc.1
            toasts := [Toast.error "写入配置失败"] }
      | none =>
          let rd := resetDevice env wc.2.1
          match rd.2.2 with
          | some e =>
              { bt := bt
                ui := { ui0 with errorMessage := some e, loading := false }
                trace := wc.1 ++ rd.1
                toasts := [Toast.error "写入配置失败"] }
          | none =>
              { bt := disconnectFn bt
                ui := { ui0 with currentStep := 3, loading := false }
                trace := wc.1 ++ rd.1 ++ [Event.disconnect]
                toasts := [Toast.success "配置写入成功，设备正在重启"] }

/-- Result of `handleCancel`. -/
structure CancelResult where
  bt : BTState
  ui : SessionState
  trace : List Event
deriving DecidableEq

/-- Models `handleCancel()`: `if (isConnected()) disconnect();` then reset the
form, the step, the error message and the cached device MAC. -/
def handleCancel (bt : BTState) (ui : SessionState) : CancelResult :=
  let d : BTState × List Event :=
    if isConnected bt then (disconnectFn bt, [Event.disconnect]) else (bt, [])
  { bt := d.1
    ui := { ui with currentStep := 0, errorMessage := none, deviceMac := "" }
    trace := d.2 }

/-- Models `handleConnectDevice()`: bail out with the unsupported message when the
capability probe fails; otherwise connect, read the device identity (MAC or
fallback), read the advertised name, store both and advance to step 1; any
thrown message lands in `errorMessage`. -/
def handleConnectDevice (env : Env) (bt : BTState) (ui : SessionState) :
    BTState × SessionState × List Toast :=
  if isSupported env = false then
    (bt,
     { ui with
        errorMessage := some "当前浏览器不支持 Web Bluetooth API，请使用 Chrome、Edge 或 Opera 浏览器" },
     [])
  else
    let ui0 : SessionState := { ui with loading := true, errorMessage := none }
    match connect env bt with
    | (bt1, some msg) =>
        (bt1, { ui0 with
                  errorMessage := some (if msg = "" then "连接设备失败，请重试" else msg)
                  loading := false },
         [Toast.error "连接设备失败"])
    | (bt1, none) =>
        match getMacAddress env bt1 with
        | Except.error msg =>
            (bt1, { ui0 with
                      errorMessage := some (if msg = "" then "连接设备失败，请重试" else msg)
                      loading := false },
             [Toast.error "连接设备失败"])
        | Except.ok mac =>
            match getDeviceName bt1 with
            | Except.error msg =>
                (bt1, { ui0 with
                          errorMessage := some (if msg = "" then "连接设备失败，请重试" else msg)
                          loading := false },
                 [Toast.error "连接设备失败"])
            | Except.ok nm =>
                (bt1, { ui0 with
                          deviceMac := mac
                          deviceName := nm
                          currentStep := 1
                          loading := false },
                 [Toast.success "设备连接成功"])

/-! ## Derived observations used by the claim statements -/

/-- Whether an event is a transport write (characteristic or chunk). -/
def isWriteEvent : Event → Bool
  | Event.writeChar _ _ => true
  | Event.writeChunk _ _ => true
  | _ => false

/-- The write attempts of a trace, in order. -/
def writeEvents (tr : List Event) : List Event := tr.filter isWriteEvent

/-- The progress-callback values of a trace, in order. -/
def progressValues (tr : List Event) : List ℚ :=
  tr.filterMap fun e => match e with | Event.progress q => some q | _ => none

/-- Number of characteristic-write attempts `writeConfig` makes for a
configuration: three scalar fields plus one attempt per image chunk. -/
def nWr (cfg : BluetoothConfig) : Nat :=
  3 + match cfg.backgroundImage with
      | none => 0
      | some p => totalChunksOf p.length

/-- The write attempts a fully successful `writeConfig` would issue, in
their fixed order: SSID, password, server URL, then the image chunks. -/
def nominalWrites (cfg : BluetoothConfig) : List Event :=
  [Event.writeChar BLE_CHARACTERISTIC_SSID cfg.ssid,
   Event.writeChar BLE_CHARACTERISTIC_PASSWORD cfg.password,
   Event.writeChar BLE_CHARACTERISTIC_SERVER_URL cfg.serverUrl]
  ++ (match cfg.backgroundImage with
      | none => []
      | some p => (List.range (totalChunksOf p.length)).map
          (fun j => Event.writeChunk j (chunkSlice p j)))

/-- One iteration's events in the chunk loop, as a function of the index. -/
def chunkEvt (scale : ℚ → ℚ) (payload : Bytes) (tc j : Nat) : List Event :=
  [Event.writeChunk j (chunkSlice payload j),
   Event.progress (scale (((j : ℚ) + 1) / (tc : ℚ)))]
  ++ (if j < tc - 1 then [Event.delay CHUNK_DELAY] else [])

/-! ## Concrete fixtures -/

/-- A configuration with the three scalar fields and no background image. -/
def cfg0 : BluetoothConfig :=
  { ssid := "home", password := "secret", serverUrl := "wss://proxy.echokit.dev/ws",
    backgroundImage := none }

/-- A never-connected bluetooth state. -/
def bt0 : BTState := { device := none, serverConnected := none, servicePresent := false }

/-- A connected bluetooth state. -/
def btConn : BTState :=
  { device := some { id := "dev-1", name := some "EchoKit" },
    serverConnected := some true, servicePresent := true }

/-- Modal state sitting on the transfer step. -/
def ui0 : SessionState :=
  { currentStep := 2, errorMessage := none, loading := false,
    deviceMac := "", deviceName := "" }

/-- Environment in which every operation succeeds. -/
def envBase : Env :=
  { supported := true, connectResult := none, macReadOk := true,
    macValue := "AA:BB:CC", now := 0, reg := RegResult.ok,
    writeOk := fun _ => true }

/-- Environment whose registration call rejects with HTTP 409. -/
def envConflict : Env := { envBase with reg := RegResult.httpErr 409 "conflict" }

/-- Environment in which exactly the k-th characteristic write fails. -/
def envFailAt (k : Nat) : Env :=
  { envBase with writeOk := fun j => decide (j ≠ k) }

/-! ## Chunk-loop lemmas -/

theorem chunkLoopGo_success (env : Env) (scale : ℚ → ℚ) (p : Bytes) (tc : Nat) :
    ∀ rem i ctr, (∀ j, ctr ≤ j → j < ctr + rem → env.writeOk j = true) →
      chunkLoopGo env scale p tc rem i ctr
        = ((List.range' i rem).flatMap (chunkEvt scale p tc), ctr + rem, true) := by
  intro rem
  induction rem with
  | zero => intro i ctr _; simp [chunkLoopGo]
  | succ rem ih =>
    intro i ctr h
    have hok : env.writeOk ctr = true := h ctr le_rfl (by omega)
    have ihh := ih (i + 1) (ctr + 1) (fun j hj1 hj2 => h j (by omega) (by omega))
    have hc : ctr + (rem + 1) = (ctr + 1) + rem := by omega
    rw [List.range'_succ, hc]
    simp only [chunkLoopGo, hok, if_true, ihh, List.flatMap_cons]
    simp [chunkEvt, List.append_assoc]

theorem chunkLoopGo_failure (env : Env) (scale : ℚ → ℚ) (p : Bytes) (tc : Nat) :
    ∀ rem i ctr k, ctr ≤ k → k < ctr + rem →
      (∀ j, ctr ≤ j → j < k → env.writeOk j = true) → env.writeOk k = false →
      chunkLoopGo env scale p tc rem i ctr
        = ((List.range' i (k - ctr)).flatMap (chunkEvt scale p tc)
            ++ [Event.writeChunk (i + (k - ctr)) (chunkSlice p (i + (k - ctr)))],
           k + 1, false) := by
  intro rem
  induction rem with
  | zero => intro i ctr k h1 h2 _ _; omega
  | succ rem ih =>
    intro i ctr k h1 h2 hpre hk
    by_cases hc : ctr = k
    · subst hc
      simp [chunkLoopGo, hk]
    · have hok : env.writeOk ctr = true := hpre ctr le_rfl (by omega)
      have ihh := ih (i + 1) (ctr + 1) k (by omega) (by omega)
        (fun j hj1 hj2 => hpre j (by omega) hj2) hk
      have hkc : k - ctr = (k - (ctr + 1)) + 1 := by omega
      have harg : i + ((k - (ctr + 1)) + 1) = (i + 1) + (k - (ctr + 1)) := by omega
      rw [hkc, harg, List.range'_succ]
      simp only [chunkLoopGo, hok, if_true, ihh, List.flatMap_cons]
      simp [chunkEvt, List.append_assoc]

theorem chunkLoopGo_success_iff (env : Env) (scale : ℚ → ℚ) (p : Bytes) (tc : Nat) :
    ∀ rem i ctr, (chunkLoopGo env scale p tc rem i ctr).2.2 = true
      ↔ (∀ j, ctr ≤ j → j < ctr + rem → env.writeOk j = true) := by
  intro rem
  induction rem with
  | zero => intro i ctr; simp [chunkLoopGo]; omega
  | succ rem ih =>
    intro i ctr
    by_cases hok : env.writeOk ctr = true
    · simp only [chunkLoopGo, hok, if_true]
      rw [ih (i + 1) (ctr + 1)]
      constructor
      · intro h j hj1 hj2
        rcases Nat.eq_or_lt_of_le hj1 with h' | h'
        · exact h' ▸ hok
        · exact h j h' (by omega)
      · intro h j hj1 hj2
        exact h j (by omega) (by omega)
    · have hok' : env.writeOk ctr = false := by simpa using hok
      simp only [chunkLoopGo, hok', Bool.false_eq_true, if_false]
      constructor
      · intro h; cases h
      · intro hcon
        have hc := hcon ctr le_rfl (by omega)
        rw [hok'] at hc; cases hc

theorem chunkLoopGo_trace_events (env : Env) (scale : ℚ → ℚ) (p : Bytes) (tc : Nat) :
    ∀ rem i ctr e, e ∈ (chunkLoopGo env scale p tc rem i ctr).1 →
      (∃ j d, e = Event.writeChunk j d) ∨ (∃ q, e = Event.progress q)
        ∨ e = Event.delay CHUNK_DELAY := by
  intro rem
  induction rem with
  | zero => intro i ctr e he; simp [chunkLoopGo] at he
  | succ rem ih =>
    intro i ctr e he
    by_cases hok : env.writeOk ctr = true
    · simp only [chunkLoopGo, hok, if_true, List.mem_append, List.mem_cons] at he
      rcases he with ((h | h | h) | h) | h
      · exact Or.inl ⟨i, chunkSlice p i, h⟩
      · exact Or.inr (Or.inl ⟨scale (((i : ℚ) + 1) / (tc : ℚ)), h⟩)
      · rcases h with ⟨h1, h2⟩
      · revert h
        split
        · intro h; simp at h; exact Or.inr (Or.inr h)
        · intro h; simp at h
      · exact ih (i + 1) (ctr + 1) e h
    · simp only [chunkLoopGo, Bool.not_eq_true] at hok
      simp only [chunkLoopGo, hok, Bool.false_eq_true, if_false, List.mem_singleton] at he
      exact Or.inl ⟨i, chunkSlice p i, he⟩

/-! ## Extraction lemmas over the closed-form chunk trace -/

theorem writeEvents_chunk_flatMap (scale : ℚ → ℚ) (p : Bytes) (tc : Nat) :
    ∀ b a, writeEvents ((List.range' a b).flatMap (chunkEvt scale p tc))
      = (List.range' a b).map (fun j => Event.writeChunk j (chunkSlice p j)) := by
  intro b
  induction b with
  | zero => intro a; simp [writeEvents]
  | succ b ih =>
    intro a
    rw [List.range'_succ, List.flatMap_cons, List.map_cons]
    simp only [writeEvents] at ih ⊢
    rw [List.filter_append, ih (a + 1)]
    by_cases h : a < tc - 1
    · simp [chunkEvt, isWriteEvent, h]
    · simp [chunkEvt, isWriteEvent, h]

theorem progressValues_chunk_flatMap (scale : ℚ → ℚ) (p : Bytes) (tc : Nat) :
    ∀ b a, progressValues ((List.range' a b).flatMap (chunkEvt scale p tc))
      = (List.range' a b).map (fun (j : Nat) => scale (((j : ℚ) + 1) / (tc : ℚ))) := by
  intro b
  induction b with
  | zero => intro a; simp [progressValues]
  | succ b ih =>
    intro a
    rw [List.range'_succ, List.flatMap_cons, List.map_cons]
    simp only [progressValues] at ih ⊢
    rw [List.filterMap_append, ih (a + 1)]
    by_cases h : a < tc - 1
    · simp [chunkEvt, h]
    · simp [chunkEvt, h]

theorem delayCount_chunk_flatMap (scale : ℚ → ℚ) (p : Bytes) (tc : Nat) :
    ∀ b a, ((List.range' a b).flatMap (chunkEvt scale p tc)).count (Event.delay CHUNK_DELAY)
      = ((List.range' a b).filter (fun j => decide (j < tc - 1))).length := by
  intro b
  induction b with
  | zero => intro a; simp
  | succ b ih =>
    intro a
    simp only [List.range'_succ, List.flatMap_cons, List.count_append, ih (a + 1)]
    simp only [List.filter_cons]
    by_cases h : a < tc - 1
    · simp [chunkEvt, h, List.count_cons]
      omega
    · simp [chunkEvt, h, List.count_cons]

/-! ## Writer-level helper lemmas -/

theorem writeBackgroundImage_success (env : Env) (scale : ℚ → ℚ) (p : Bytes) (ctr : Nat)
    (h : ∀ j, ctr ≤ j → j < ctr + totalChunksOf p.length → env.writeOk j = true) :
    writeBackgroundImage env scale p ctr
      = ((List.range (totalChunksOf p.length)).flatMap
           (chunkEvt scale p (totalChunksOf p.length)),
         ctr + totalChunksOf p.length, true) := by
  rw [writeBackgroundImage, chunkLoopGo_success env scale p _ _ 0 ctr h,
    List.range_eq_range']

theorem length_filter_lt_range (m n : Nat) :
    ((List.range n).filter (fun j => decide (j < m))).length = min m n := by
  induction n with
  | zero => simp
  | succ n ih =>
    rw [List.range_succ, List.filter_append, List.length_append, ih]
    by_cases h : n < m
    · simp [h]; omega
    · simp [h]; omega

theorem getLast?_range (n : Nat) (h : 0 < n) : (List.range n).getLast? = some (n - 1) := by
  cases n with
  | zero => omega
  | succ m => rw [List.range_succ, List.getLast?_concat]; simp

theorem flatten_chunks (p : Bytes) :
    ∀ k, ((List.range k).map (chunkSlice p)).flatten = p.take (k * CHUNK_SIZE) := by
  intro k
  induction k with
  | zero => simp
  | succ k ih =>
    rw [List.range_succ, List.map_append, List.flatten_append, ih]
    have hs : (k + 1) * CHUNK_SIZE = k * CHUNK_SIZE + CHUNK_SIZE := by ring
    rw [hs, List.take_add]
    simp [chunkSlice]

/-! ## Claims about the Chunked Writer -/

/-- C6: for a payload of n bytes the Chunked Writer issues exactly
ceil(n/512) chunk writes, strictly in index order (the write events are the
map of `Event.writeChunk` over `range totalChunks`), and the 50 ms pacing
delay occurs exactly `totalChunks - 1` times — the full closed-form trace
places it after every frame's progress report except the last frame's.  The
final conjunct states that `totalChunksOf` is precisely the ceiling of
`n / CHUNK_SIZE`. -/
theorem chunked_writer_frames (p : Bytes) :
    (writeBackgroundImage envBase id p 0).1
      = (List.range (totalChunksOf p.length)).flatMap
          (chunkEvt id p (totalChunksOf p.length))
    ∧ writeEvents (writeBackgroundImage envBase id p 0).1
        = (List.range (totalChunksOf p.length)).map
            (fun j => Event.writeChunk j (chunkSlice p j))
    ∧ (writeEvents (writeBackgroundImage envBase id p 0).1).length = totalChunksOf p.length
    ∧ (writeBackgroundImage envBase id p 0).1.count (Event.delay CHUNK_DELAY)
        = totalChunksOf p.length - 1
    ∧ (∀ m : Nat, totalChunksOf p.length ≤ m ↔ p.length ≤ CHUNK_SIZE * m) := by
  have hbi := writeBackgroundImage_success envBase id p 0 (fun j _ _ => rfl)
  refine ⟨?_, ?_, ?_, ?_, ?_⟩
  · rw [hbi]
  · rw [hbi, List.range_eq_range', writeEvents_chunk_flatMap]
  · rw [hbi, List.range_eq_range', writeEvents_chunk_flatMap]
    simp
  · rw [hbi, List.range_eq_range', delayCount_chunk_flatMap, ← List.range_eq_range',
      length_filter_lt_range]
    omega
  · intro m
    simp only [totalChunksOf, CHUNK_SIZE]
    omega

/-- C7 (amended): the Chunked Writer reports progress after each
acknowledged frame with value (framesWritten)/(totalFrames); the reported
sequence is non-decreasing, and for a non-empty payload it ends at exactly
1.  For a zero-length payload the writer completes immediately with zero
frames and zero progress callbacks — in particular it never reports 1.0,
which is where the original claim fails. -/
theorem progress_sequence (p : Bytes) :
    progressValues (writeBackgroundImage envBase id p 0).1
      = (List.range (totalChunksOf p.length)).map
          (fun (j : Nat) => ((j : ℚ) + 1) / (totalChunksOf p.length : ℚ))
    ∧ List.Pairwise (· ≤ ·) (progressValues (writeBackgroundImage envBase id p 0).1)
    ∧ (p ≠ [] → (progressValues (writeBackgroundImage envBase id p 0).1).getLast? = some 1)
    ∧ (p = [] → (writeBackgroundImage envBase id p 0).1 = []) := by
  have hbi := writeBackgroundImage_success envBase id p 0 (fun j _ _ => rfl)
  have hpv : progressValues (writeBackgroundImage envBase id p 0).1
      = (List.range (totalChunksOf p.length)).map
          (fun (j : Nat) => ((j : ℚ) + 1) / (totalChunksOf p.length : ℚ)) := by
    rw [hbi, List.range_eq_range', progressValues_chunk_flatMap]
    simp
  have hmono : ∀ a b : Nat, a < b →
      ((a : ℚ) + 1) / (totalChunksOf p.length : ℚ)
        ≤ ((b : ℚ) + 1) / (totalChunksOf p.length : ℚ) := by
    intro a b hab
    rcases Nat.eq_zero_or_pos (totalChunksOf p.length) with h0 | h0
    · simp [h0]
    · have hc : (0 : ℚ) < (totalChunksOf p.length : ℚ) := by exact_mod_cast h0
      rw [div_le_div_iff_of_pos_right hc]
      have hab' : (a : ℚ) ≤ (b : ℚ) := by exact_mod_cast hab.le
      linarith
  have hpw : List.Pairwise (· ≤ ·) (progressValues (writeBackgroundImage envBase id p 0).1) := by
    rw [hpv, List.pairwise_map]
    exact (List.pairwise_lt_range _).imp (fun hab => hmono _ _ hab)
  have hlast : p ≠ [] →
      (progressValues (writeBackgroundImage envBase id p 0).1).getLast? = some 1 := by
    intro hp
    have hn : 0 < p.length := List.length_pos.mpr hp
    have htc : 0 < totalChunksOf p.length := by
      simp only [totalChunksOf, CHUNK_SIZE]; omega
    have hne : (totalChunksOf p.length : ℚ) ≠ 0 := by exact_mod_cast htc.ne'
    rw [hpv, List.getLast?_map, getLast?_range _ htc]
    have hcast : ((totalChunksOf p.length - 1 : Nat) : ℚ)
        = (totalChunksOf p.length : ℚ) - 1 := by
      exact_mod_cast Nat.cast_sub htc
    simp only [Option.map_some']
    rw [hcast, sub_add_cancel, div_self hne]
  refine ⟨hpv, hpw, hlast, ?_⟩
  intro hp
  subst hp
  rfl

/-- C7 witness: for the one-byte payload the reported progress sequence
ends at exactly 1. -/
theorem progress_sequence_witness :
    ([0] : Bytes) ≠ []
    ∧ (progressValues (writeBackgroundImage envBase id [0] 0).1).getLast? = some 1 :=
  ⟨by decide, (progress_sequence [0]).2.2.1 (by decide)⟩

/-- C7 counterexample: on a zero-length payload the writer issues no frame
and invokes the progress callback zero times, so it never reports progress
1.0 — contradicting the claim that a zero-length payload completes with
progress 1.0. -/
theorem zero_payload_progress_counterexample :
    (writeBackgroundImage envBase id [] 0).1 = []
    ∧ progressValues (writeBackgroundImage envBase id [] 0).1 = []
    ∧ Event.progress 1 ∉ (writeBackgroundImage envBase id [] 0).1 := by
  have h1 : (writeBackgroundImage envBase id [] 0).1 = [] := rfl
  refine ⟨h1, rfl, ?_⟩
  rw [h1]
  simp

/-- C10: data integrity of the chunked transfer.  The frames written are
exactly `writeChunk j (chunkSlice p j)` for `j < totalChunks` in order;
frame `j` carries precisely the byte range from `j * 512` up to
`min ((j+1) * 512, n)`; every frame before the last is exactly 512 bytes;
the last frame carries the remaining `n - 512 * (totalChunks - 1)` bytes;
and the concatenation of all frames in order is the original payload. -/
theorem chunk_data_integrity (p : Bytes) :
    writeEvents (writeBackgroundImage envBase id p 0).1
      = (List.range (totalChunksOf p.length)).map
          (fun j => Event.writeChunk j (chunkSlice p j))
    ∧ (∀ i : Nat, chunkSlice p i
        = (p.take (i * CHUNK_SIZE + CHUNK_SIZE)).drop (i * CHUNK_SIZE))
    ∧ (∀ i : Nat, i + 1 < totalChunksOf p.length → (chunkSlice p i).length = CHUNK_SIZE)
    ∧ (p ≠ [] → (chunkSlice p (totalChunksOf p.length - 1)).length
        = p.length - (totalChunksOf p.length - 1) * CHUNK_SIZE)
    ∧ ((List.range (totalChunksOf p.length)).map (chunkSlice p)).flatten = p := by
  have hbi := writeBackgroundImage_success envBase id p 0 (fun j _ _ => rfl)
  refine ⟨?_, ?_, ?_, ?_, ?_⟩
  · rw [hbi, List.range_eq_range', writeEvents_chunk_flatMap]
  · intro i
    rw [chunkSlice, List.drop_take]
    congr 1
    omega
  · intro i hi
    simp only [totalChunksOf, CHUNK_SIZE] at hi
    simp only [chunkSlice, List.length_take, List.length_drop, CHUNK_SIZE]
    omega
  · intro hp
    have hn : 0 < p.length := List.length_pos.mpr hp
    simp only [chunkSlice, List.length_take, List.length_drop, totalChunksOf, CHUNK_SIZE]
    omega
  · rw [flatten_chunks]
    apply List.take_of_length_le
    simp only [totalChunksOf, CHUNK_SIZE]
    omega

/-- C10 witness: for the 3-byte payload there is a single frame holding all
3 bytes. -/
theorem chunk_data_integrity_witness :
    ([1, 2, 3] : Bytes) ≠ []
    ∧ (chunkSlice [1, 2, 3] (totalChunksOf ([1, 2, 3] : Bytes).length - 1)).length
        = ([1, 2, 3] : Bytes).length
          - (totalChunksOf ([1, 2, 3] : Bytes).length - 1) * CHUNK_SIZE :=
  ⟨by decide, (chunk_data_integrity [1, 2, 3]).2.2.2.1 (by decide)⟩

/-! ## writeConfig-level lemmas -/

/-- The event trace of a fully successful `writeConfig` run started at
oracle index 0: the three scalar writes with their progress reports, then
(if an image is present) the chunk trace and the final progress report. -/
def cfgSuccessTrace (cfg : BluetoothConfig) : List Event :=
  match cfg.backgroundImage with
  | none =>
      [Event.writeChar BLE_CHARACTERISTIC_SSID cfg.ssid,
       Event.progress ((1 : ℚ) / (3 : ℚ)),
       Event.writeChar BLE_CHARACTERISTIC_PASSWORD cfg.password,
       Event.progress ((2 : ℚ) / (3 : ℚ)),
       Event.writeChar BLE_CHARACTERISTIC_SERVER_URL cfg.serverUrl,
       Event.progress ((3 : ℚ) / (3 : ℚ))]
  | some p =>
      [Event.writeChar BLE_CHARACTERISTIC_SSID cfg.ssid,
       Event.progress ((1 : ℚ) / (4 : ℚ)),
       Event.writeChar BLE_CHARACTERISTIC_PASSWORD cfg.password,
       Event.progress ((2 : ℚ) / (4 : ℚ)),
       Event.writeChar BLE_CHARACTERISTIC_SERVER_URL cfg.serverUrl,
       Event.progress ((3 : ℚ) / (4 : ℚ))]
      ++ (List.range (totalChunksOf p.length)).flatMap
          (chunkEvt (fun q => (((3 : ℚ) + q) / (4 : ℚ))) p (totalChunksOf p.length))
      ++ [Event.progress ((4 : ℚ) / (4 : ℚ))]

theorem writeConfig_success (env : Env) (cfg : BluetoothConfig)
    (h : ∀ j, j < nWr cfg → env.writeOk j = true) :
    writeConfig env cfg 0 = (cfgSuccessTrace cfg, nWr cfg, none) := by
  have h3 : 3 ≤ nWr cfg := Nat.le_add_right 3 _
  have h0 : env.writeOk 0 = true := h 0 (by omega)
  have h1 : env.writeOk 1 = true := h 1 (by omega)
  have h2 : env.writeOk 2 = true := h 2 (by omega)
  cases hbg : cfg.backgroundImage with
  | none =>
      simp [writeConfig, writeCharacteristic, cfgSuccessTrace, h0, h1, h2, hbg, nWr]
  | some p =>
      have hn : nWr cfg = 3 + totalChunksOf p.length := by simp [nWr, hbg]
      have himg := writeBackgroundImage_success env
        (fun q => (((3 : ℚ) + q) / (4 : ℚ))) p 3
        (fun j hj1 hj2 => h j (by omega))
      simp [writeConfig, writeCharacteristic, cfgSuccessTrace, h0, h1, h2, hbg, himg, hn]

theorem writeConfig_fail (env : Env) (cfg : BluetoothConfig) (k : Nat)
    (hk : k < nWr cfg) (hpre : ∀ j, j < k → env.writeOk j = true)
    (hfk : env.writeOk k = false) :
    (writeConfig env cfg 0).2.2 = some writeConfigFailMsg
    ∧ (writeConfig env cfg 0).2.1 = k + 1
    ∧ writeEvents (writeConfig env cfg 0).1 = (nominalWrites cfg).take (k + 1) := by
  match k with
  | 0 =>
      cases hbg : cfg.backgroundImage <;>
        simp [writeConfig, writeCharacteristic, hfk, hbg, nominalWrites,
          writeEvents, isWriteEvent]
  | 1 =>
      have h0 : env.writeOk 0 = true := hpre 0 (by omega)
      cases hbg : cfg.backgroundImage <;>
        simp [writeConfig, writeCharacteristic, h0, hfk, hbg, nominalWrites,
          writeEvents, isWriteEvent]
  | 2 =>
      have h0 : env.writeOk 0 = true := hpre 0 (by omega)
      have h1 : env.writeOk 1 = true := hpre 1 (by omega)
      cases hbg : cfg.backgroundImage <;>
        simp [writeConfig, writeCharacteristic, h0, h1, hfk, hbg, nominalWrites,
          writeEvents, isWriteEvent]
  | c + 3 =>
      have h0 : env.writeOk 0 = true := hpre 0 (by omega)
      have h1 : env.writeOk 1 = true := hpre 1 (by omega)
      have h2 : env.writeOk 2 = true := hpre 2 (by omega)
      cases hbg : cfg.backgroundImage with
      | none =>
          have hn3 : nWr cfg = 3 := by simp [nWr, hbg]
          omega
      | some p =>
          have hn : nWr cfg = 3 + totalChunksOf p.length := by simp [nWr, hbg]
          have hc : c < totalChunksOf p.length := by omega
          have himg : writeBackgroundImage env
              (fun q => (((3 : ℚ) + q) / (4 : ℚ))) p 3
              = ((List.range' 0 c).flatMap
                   (chunkEvt (fun q => (((3 : ℚ) + q) / (4 : ℚ))) p
                     (totalChunksOf p.length))
                  ++ [Event.writeChunk (0 + (c + 3 - 3)) (chunkSlice p (0 + (c + 3 - 3)))],
                 (c + 3) + 1, false) := by
            rw [writeBackgroundImage]
            have := chunkLoopGo_failure env
              (fun q => (((3 : ℚ) + q) / (4 : ℚ))) p (totalChunksOf p.length)
              (totalChunksOf p.length) 0 3 (c + 3) (by omega) (by omega)
              (fun j hj1 hj2 => hpre j hj2) hfk
            simpa using this
          refine ⟨?_, ?_, ?_⟩
          · simp [writeConfig, writeCharacteristic, h0, h1, h2, hbg, himg]
          · simp [writeConfig, writeCharacteristic, h0, h1, h2, hbg, himg]
          · have h31 : c + 3 + 1 = ((c + 1) + 1 + 1) + 1 := by omega
            have hnom : (nominalWrites cfg).take (c + 3 + 1)
                = [Event.writeChar BLE_CHARACTERISTIC_SSID cfg.ssid,
                   Event.writeChar BLE_CHARACTERISTIC_PASSWORD cfg.password,
                   Event.writeChar BLE_CHARACTERISTIC_SERVER_URL cfg.serverUrl]
                  ++ ((List.range c).map (fun j => Event.writeChunk j (chunkSlice p j))
                      ++ [Event.writeChunk c (chunkSlice p c)]) := by
              simp only [nominalWrites, hbg, List.cons_append, List.nil_append]
              rw [h31]
              simp only [List.take_succ_cons]
              rw [← List.map_take, List.take_range]
              have hmin : min (c + 1) (totalChunksOf p.length) = c + 1 := by omega
              rw [hmin]
              have hr : List.range (c + 1) = List.range c ++ [c] := by
                exact List.range_succ c
              rw [hr]
              simp
            rw [hnom]
            have hwe := writeEvents_chunk_flatMap
              (fun q => (((3 : ℚ) + q) / (4 : ℚ))) p (totalChunksOf p.length) c 0
            simp only [writeEvents] at hwe
            simp [writeConfig, writeCharacteristic, h0, h1, h2, hbg, himg,
              writeEvents, isWriteEvent, List.filter_append, hwe, List.range_eq_range']
theorem chunkLoopGo_not_disconnect (env : Env) (scale : ℚ → ℚ) (p : Bytes)
    (tc rem i ctr : Nat) : Event.disconnect ∉ (chunkLoopGo env scale p tc rem i ctr).1 := by
  intro h
  rcases chunkLoopGo_trace_events env scale p tc rem i ctr _ h with ⟨j, d, hc⟩ | ⟨q, hc⟩ | hc <;>
    simp at hc

theorem chunkLoopGo_not_writeChar (env : Env) (scale : ℚ → ℚ) (p : Bytes)
    (tc rem i ctr : Nat) (u v : String) :
    Event.writeChar u v ∉ (chunkLoopGo env scale p tc rem i ctr).1 := by
  intro h
  rcases chunkLoopGo_trace_events env scale p tc rem i ctr _ h with ⟨j, d, hc⟩ | ⟨q, hc⟩ | hc <;>
    simp at hc

/-- The function `writeConfig` never calls disconnect: its trace has no disconnect event
on any path. -/
theorem writeConfig_not_disconnect (env : Env) (cfg : BluetoothConfig) (ctr : Nat) :
    Event.disconnect ∉ (writeConfig env cfg ctr).1 := by
  simp only [writeConfig, writeCharacteristic]
  split
  · simp
  · split
    · simp
    · split
      · simp
      · split
        · simp
        · split
          · simp [writeBackgroundImage, chunkLoopGo_not_disconnect]
          · simp [writeBackgroundImage, chunkLoopGo_not_disconnect]

/-- The function `writeConfig` never writes the reset characteristic. -/
theorem writeConfig_not_resetChar (env : Env) (cfg : BluetoothConfig) (ctr : Nat) (v : String) :
    Event.writeChar BLE_CHARACTERISTIC_RESET v ∉ (writeConfig env cfg ctr).1 := by
  have hne1 : BLE_CHARACTERISTIC_RESET ≠ BLE_CHARACTERISTIC_SSID := by decide
  have hne2 : BLE_CHARACTERISTIC_RESET ≠ BLE_CHARACTERISTIC_PASSWORD := by decide
  have hne3 : BLE_CHARACTERISTIC_RESET ≠ BLE_CHARACTERISTIC_SERVER_URL := by decide
  simp only [writeConfig, writeCharacteristic]
  split
  · simp [hne1]
  · split
    · simp [hne1, hne2]
    · split
      · simp [hne1, hne2, hne3]
      · split
        · simp [hne1, hne2, hne3]
        · split
          · simp [hne1, hne2, hne3, writeBackgroundImage, chunkLoopGo_not_writeChar]
          · simp [hne1, hne2, hne3, writeBackgroundImage, chunkLoopGo_not_writeChar]

/-- The function `writeConfig` succeeds exactly when all of its `nWr cfg` write attempts
succeed. -/
theorem writeConfig_succ_iff (env : Env) (cfg : BluetoothConfig) :
    (writeConfig env cfg 0).2.2 = none ↔ (∀ j, j < nWr cfg → env.writeOk j = true) := by
  constructor
  · intro hnone
    by_contra hnot
    push_neg at hnot
    obtain ⟨j0, hj0, hjf⟩ := hnot
    have hjf' : env.writeOk j0 = false := by simpa using hjf
    have hex : ∃ n, env.writeOk n = false := ⟨j0, hjf'⟩
    have hkspec : env.writeOk (Nat.find hex) = false := Nat.find_spec hex
    have hkle : Nat.find hex ≤ j0 := Nat.find_min' hex hjf'
    have hpre0 : ∀ j, j < Nat.find hex → env.writeOk j = true := by
      intro j hj
      have := Nat.find_min hex hj
      cases hw : env.writeOk j with
      | true => rfl
      | false => exact absurd hw this
    have hfail := writeConfig_fail env cfg (Nat.find hex) (by omega) hpre0 hkspec
    rw [hfail.1] at hnone
    cases hnone
  · intro h
    rw [writeConfig_success env cfg h]

/-- The write attempts of a fully successful `writeConfig` run are exactly
the nominal fixed-order write sequence. -/
theorem writeEvents_cfgSuccessTrace (cfg : BluetoothConfig) :
    writeEvents (cfgSuccessTrace cfg) = nominalWrites cfg := by
  cases hbg : cfg.backgroundImage with
  | none => simp [cfgSuccessTrace, nominalWrites, hbg, writeEvents, isWriteEvent]
  | some p =>
      have hwe := writeEvents_chunk_flatMap (fun q => (((3 : ℚ) + q) / (4 : ℚ))) p
        (totalChunksOf p.length) (totalChunksOf p.length) 0
      simp only [writeEvents] at hwe
      simp [cfgSuccessTrace, nominalWrites, hbg, writeEvents, isWriteEvent,
        List.filter_append, hwe, List.range_eq_range']

/-! ## Fixtures for failing runs -/

/-- Environment in which the three scalar config writes succeed and every
later write (in particular the reset command, attempt index 3 for an
asset-less config) fails. -/
def envResetFail : Env := { envBase with writeOk := fun j => decide (j < 3) }

/-- Environment with a failing MAC-characteristic read at clock value t. -/
def envMacFail (t : Nat) : Env := { envBase with macReadOk := false, now := t }

/-- The identifier `getMacAddress` falls back to when the characteristic
read fails: `device.id` when present and non-empty, else the advertised
name (or the text undefined) joined with the current time. -/
def fallbackId (bt : BTState) (t : Nat) : String :=
  match bt.device with
  | some d => if d.id = "" then (d.name.getD "undefined") ++ "-" ++ toString t else d.id
  | none => "undefined" ++ "-" ++ toString t

theorem append_dash_ne_empty (a b : String) : a ++ "-" ++ b ≠ "" := by
  intro h
  have hl := congrArg String.length h
  rw [String.length_append, String.length_append] at hl
  have h1 : ("-" : String).length = 1 := rfl
  have h0 : ("" : String).length = 0 := rfl
  omega

theorem getMacAddress_fallback (env : Env) (bt : BTState)
    (hsvc : bt.servicePresent = true) (hfail : env.macReadOk = false) :
    getMacAddress env bt = Except.ok (fallbackId bt env.now) := by
  cases hd : bt.device with
  | none => simp [getMacAddress, hsvc, hfail, fallbackId, hd]
  | some d =>
      by_cases hid : d.id = "" <;>
        simp [getMacAddress, hsvc, hfail, fallbackId, hd, hid]

/-! ## Claim C1 -/

/-- C1: when the remote registration reports a 409 conflict, the session
moves directly to the final Done step (step 3), issues no transport event
at all — no Chunked Writer operation, no configuration write, no
disconnect — and leaves the BLE state untouched for the caller to close;
the already-registered warning is the surfaced outcome. -/
theorem conflict_short_circuit (env : Env) (bt : BTState) (cfg : BluetoothConfig)
    (ui : SessionState) (m : String) (h : env.reg = RegResult.httpErr 409 m) :
    (handleWriteConfig env bt cfg ui).trace = []
    ∧ (handleWriteConfig env bt cfg ui).ui.currentStep = 3
    ∧ (handleWriteConfig env bt cfg ui).ui.errorMessage = none
    ∧ (handleWriteConfig env bt cfg ui).bt = bt
    ∧ Toast.warning "设备已注册过，将跳过配置写入步骤"
        ∈ (handleWriteConfig env bt cfg ui).toasts := by
  simp [handleWriteConfig, h]

/-- C1 witness at a concrete conflicting run. -/
theorem conflict_short_circuit_witness :
    (handleWriteConfig envConflict bt0 cfg0 ui0).trace = []
    ∧ (handleWriteConfig envConflict bt0 cfg0 ui0).ui.currentStep = 3
    ∧ (handleWriteConfig envConflict bt0 cfg0 ui0).ui.errorMessage = none
    ∧ (handleWriteConfig envConflict bt0 cfg0 ui0).bt = bt0
    ∧ Toast.warning "设备已注册过，将跳过配置写入步骤"
        ∈ (handleWriteConfig envConflict bt0 cfg0 ui0).toasts :=
  conflict_short_circuit envConflict bt0 cfg0 ui0 "conflict" rfl

/-! ## Claim C5 -/

/-- C5 counterexample: for a never-connected session, user cancellation
does not invoke disconnect at all — the call is guarded by
`isConnected()` — contradicting the claim that cancellation invokes
`Transport.disconnect()` unconditionally in every state. -/
theorem cancel_disconnect_counterexample :
    isConnected bt0 = false
    ∧ (handleCancel bt0 ui0).trace = []
    ∧ Event.disconnect ∉ (handleCancel bt0 ui0).trace := by
  have h : (handleCancel bt0 ui0).trace = [] := rfl
  exact ⟨rfl, h, by rw [h]; simp⟩

/-- C5 (amended): cancellation invokes `disconnect()` exactly when the
transport reports connected; in every case the session ends not connected,
the step returns to 0 and the error message and cached device MAC are
cleared — so a live connection is always released before the cancelled
state, while never-connected or already-disconnected sessions simply skip
the (physically redundant) call. -/
theorem cancel_behavior (bt : BTState) (ui : SessionState) :
    ((handleCancel bt ui).trace = if isConnected bt then [Event.disconnect] else [])
    ∧ isConnected (handleCancel bt ui).bt = false
    ∧ (handleCancel bt ui).ui.currentStep = 0
    ∧ (handleCancel bt ui).ui.errorMessage = none
    ∧ (handleCancel bt ui).ui.deviceMac = "" := by
  by_cases hc : isConnected bt
  · have hc' : bt.serverConnected.getD false = true := hc
    simp [handleCancel, disconnectFn, isConnected, hc']
  · have hc' : bt.serverConnected.getD false = false := by simpa [isConnected] using hc
    simp [handleCancel, isConnected, hc']

/-! ## Claim C9 -/

/-- C9 counterexample: with a device exposing a transport id, two identity
resolutions at different clock values after a failed identity-channel read
both return the same transport id — the result is neither synthesized from
the advertised name and the current time nor unique per call. -/
theorem identity_fallback_counterexample :
    getMacAddress (envMacFail 0) btConn = Except.ok "dev-1"
    ∧ getMacAddress (envMacFail 1) btConn = Except.ok "dev-1"
    ∧ getMacAddress (envMacFail 0) btConn = getMacAddress (envMacFail 1) btConn :=
  ⟨rfl, rfl, rfl⟩

/-- C9 (amended): when the identity-channel read fails, the resolver
returns, without erroring, the transport device id when it is present and
non-empty (a stable value, identical across calls), and only otherwise the
advertised name (or the placeholder text undefined) concatenated with the
current time; the result is always non-empty, and the connect handler still
proceeds to the configuration step with no error. -/
theorem identity_fallback (env : Env) (bt : BTState)
    (hsvc : bt.servicePresent = true) (hfail : env.macReadOk = false) :
    getMacAddress env bt = Except.ok (fallbackId bt env.now)
    ∧ fallbackId bt env.now ≠ ""
    ∧ (∀ d ui, env.supported = true → env.connectResult = some d →
        (handleConnectDevice env bt ui).2.1.currentStep = 1
        ∧ (handleConnectDevice env bt ui).2.1.errorMessage = none) := by
  refine ⟨getMacAddress_fallback env bt hsvc hfail, ?_, ?_⟩
  · cases hd : bt.device with
    | none => simp [fallbackId, hd]; exact append_dash_ne_empty "undefined" _
    | some d =>
        by_cases hid : d.id = ""
        · simp [fallbackId, hd, hid]
          exact append_dash_ne_empty _ _
        · simp [fallbackId, hd, hid]
  · intro d ui hsup hcon
    have hbt1 : connect env bt
        = ({ device := some d, serverConnected := some true, servicePresent := true }, none) := by
      simp [connect, isSupported, hsup, hcon]
    have hmac := getMacAddress_fallback env
      { device := some d, serverConnected := some true, servicePresent := true } rfl hfail
    constructor <;>
      simp [handleConnectDevice, isSupported, hsup, hbt1, hmac, getDeviceName]

/-- C9 witness at a concrete run: service bound, identity read fails. -/
theorem identity_fallback_witness :
    getMacAddress (envMacFail 5) btConn = Except.ok (fallbackId btConn 5)
    ∧ fallbackId btConn 5 ≠ "" :=
  have h := identity_fallback (envMacFail 5) btConn rfl rfl
  ⟨h.1, h.2.1⟩

/-! ## Claim C2 -/

/-- C2 counterexample: a session whose registration call reports a 409
conflict reaches the terminal Done step having made zero
`Transport.disconnect()` calls — so disconnect is not called exactly once
on every path that reaches a terminal state. -/
theorem disconnect_once_counterexample :
    (handleWriteConfig envConflict bt0 cfg0 ui0).ui.currentStep = 3
    ∧ (handleWriteConfig envConflict bt0 cfg0 ui0).trace.count Event.disconnect = 0 :=
  ⟨rfl, rfl⟩

/-- C2 (amended): during the write-config transition, disconnect is called
exactly once precisely on the fully successful provisioning path
(registration resolves and every configuration write and the reset command
succeed); on the conflict path and on every error path the transition makes
no disconnect call — release is deferred to the cancel-or-close handler,
which calls disconnect exactly when the transport still reports
connected. -/
theorem disconnect_call_characterization (env : Env) (bt : BTState)
    (cfg : BluetoothConfig) (ui : SessionState) :
    ((handleWriteConfig env bt cfg ui).trace.count Event.disconnect
      = if env.reg = RegResult.ok ∧ (∀ j, j < nWr cfg + 1 → env.writeOk j = true)
        then 1 else 0)
    ∧ (∀ bt2 ui2, (handleCancel bt2 ui2).trace.count Event.disconnect
        = if isConnected bt2 then 1 else 0) := by
  constructor
  · cases hreg : env.reg with
    | httpErr s m =>
        rw [if_neg (by simp [hreg])]
        by_cases hs : s = 409 <;> simp [handleWriteConfig, hreg, hs]
    | ok =>
        by_cases hall : ∀ j, j < nWr cfg + 1 → env.writeOk j = true
        · rw [if_pos ⟨rfl, hall⟩]
          have hcfg : ∀ j, j < nWr cfg → env.writeOk j = true :=
            fun j hj => hall j (by omega)
          have hwc := writeConfig_success env cfg hcfg
          have hsnone : (writeConfig env cfg 0).2.2 = none := by rw [hwc]
          have hctr : (writeConfig env cfg 0).2.1 = nWr cfg := by rw [hwc]
          have hrst : env.writeOk (nWr cfg) = true := hall _ (by omega)
          have hnd := List.count_eq_zero.mpr (writeConfig_not_disconnect env cfg 0)
          simp [handleWriteConfig, hreg, hsnone, hctr, resetDevice, hrst,
            List.count_append, hnd]
        · rw [if_neg (by intro hand; exact hall hand.2)]
          by_cases hcfg : ∀ j, j < nWr cfg → env.writeOk j = true
          · have hwc := writeConfig_success env cfg hcfg
            have hsnone : (writeConfig env cfg 0).2.2 = none := by rw [hwc]
            have hctr : (writeConfig env cfg 0).2.1 = nWr cfg := by rw [hwc]
            have hrst : env.writeOk (nWr cfg) = false := by
              cases hw : env.writeOk (nWr cfg) with
              | false => rfl
              | true =>
                  exfalso
                  apply hall
                  intro j hj
                  rcases Nat.lt_succ_iff_lt_or_eq.mp hj with h | h
                  · exact hcfg j h
                  · rw [h]; exact hw
            have hnd := List.count_eq_zero.mpr (writeConfig_not_disconnect env cfg 0)
            simp [handleWriteConfig, hreg, hsnone, hctr, resetDevice, hrst,
              List.count_append, hnd]
          · have hne : ¬((writeConfig env cfg 0).2.2 = none) := by
              rw [writeConfig_succ_iff]
              exact hcfg
            cases hval : (writeConfig env cfg 0).2.2 with
            | none => exact absurd hval hne
            | some e =>
                have hnd := List.count_eq_zero.mpr (writeConfig_not_disconnect env cfg 0)
                simp [handleWriteConfig, hreg, hval, hnd]
  · intro bt2 ui2
    by_cases hc : isConnected bt2
    · have hc' : bt2.serverConnected.getD false = true := hc
      simp [handleCancel, isConnected, hc']
    · have hc' : bt2.serverConnected.getD false = false := by simpa [isConnected] using hc
      simp [handleCancel, isConnected, hc']

/-! ## Claim C3 -/

/-- C3 (amended): if the k-th write attempt of the transfer fails (all
earlier attempts having succeeded), the transfer aborts immediately: the
write attempts issued are exactly the first k+1 of the nominal fixed-order
write sequence and nothing after the failing one, no reset command is ever
written, the connection is not auto-closed (no disconnect call, BLE state
untouched), the session stays on its current step, and the surfaced error
is the constant generic message — it carries neither the failed field nor
the frame index. -/
theorem transfer_abort_behavior (env : Env) (bt : BTState) (cfg : BluetoothConfig)
    (ui : SessionState) (k : Nat) (hreg : env.reg = RegResult.ok)
    (hk : k < nWr cfg) (hpre : ∀ j, j < k → env.writeOk j = true)
    (hfail : env.writeOk k = false) :
    (handleWriteConfig env bt cfg ui).ui.errorMessage = some "写入配置失败，请重试"
    ∧ (handleWriteConfig env bt cfg ui).ui.currentStep = ui.currentStep
    ∧ writeEvents (handleWriteConfig env bt cfg ui).trace = (nominalWrites cfg).take (k + 1)
    ∧ Event.disconnect ∉ (handleWriteConfig env bt cfg ui).trace
    ∧ (∀ v, Event.writeChar BLE_CHARACTERISTIC_RESET v
        ∉ (handleWriteConfig env bt cfg ui).trace)
    ∧ (handleWriteConfig env bt cfg ui).bt = bt := by
  obtain ⟨hsome, hctr, hwev⟩ := writeConfig_fail env cfg k hk hpre hfail
  refine ⟨?_, ?_, ?_, ?_, ?_, ?_⟩
  · simp [handleWriteConfig, hreg, hsome, writeConfigFailMsg]
  · simp [handleWriteConfig, hreg, hsome]
  · simpa [handleWriteConfig, hreg, hsome] using hwev
  · simpa [handleWriteConfig, hreg, hsome] using writeConfig_not_disconnect env cfg 0
  · intro v
    simpa [handleWriteConfig, hreg, hsome] using writeConfig_not_resetChar env cfg 0 v
  · simp [handleWriteConfig, hreg, hsome]

/-- C3 witness: the second scalar write (the network secret) failing at
attempt index 1 aborts the transfer after two write attempts with no
disconnect. -/
theorem transfer_abort_behavior_witness :
    1 < nWr cfg0
    ∧ (handleWriteConfig (envFailAt 1) btConn cfg0 ui0).ui.errorMessage
        = some "写入配置失败，请重试"
    ∧ writeEvents (handleWriteConfig (envFailAt 1) btConn cfg0 ui0).trace
        = (nominalWrites cfg0).take 2
    ∧ Event.disconnect ∉ (handleWriteConfig (envFailAt 1) btConn cfg0 ui0).trace :=
  have h := transfer_abort_behavior (envFailAt 1) btConn cfg0 ui0 1 rfl
    (by decide) (by decide) (by decide)
  ⟨by decide, h.1, h.2.2.1, h.2.2.2.1⟩

/-- C3 counterexample: a failure on the network-secret write (attempt 1)
and a failure on the rendezvous-URL write (attempt 2) surface the very same
constant error message, so the surfaced error carries neither the failed
field nor the frame index, contradicting the claimed
TransferFailed(field, frameIndex) payload. -/
theorem transfer_error_payload_counterexample :
    (handleWriteConfig (envFailAt 1) btConn cfg0 ui0).ui.errorMessage
      = (handleWriteConfig (envFailAt 2) btConn cfg0 ui0).ui.errorMessage
    ∧ (handleWriteConfig (envFailAt 1) btConn cfg0 ui0).ui.errorMessage
        = some "写入配置失败，请重试" :=
  ⟨rfl, rfl⟩

/-! ## Claim C4 -/

/-- C4 counterexample: with every configuration write succeeding and the
reset command failing, the session surfaces the reset error and stays on
the transfer step — it does not reach Done/Provisioned — and disconnect is
never called, contradicting the claim that a reset failure is non-fatal
with disconnect still proceeding. -/
theorem reset_failure_counterexample :
    (handleWriteConfig envResetFail btConn cfg0 ui0).ui.currentStep = 2
    ∧ (handleWriteConfig envResetFail btConn cfg0 ui0).ui.errorMessage = some "重启设备失败"
    ∧ (handleWriteConfig envResetFail btConn cfg0 ui0).trace.count Event.disconnect = 0 := by
  refine ⟨rfl, rfl, ?_⟩
  decide

/-- C4 (amended): a failure of the reset command is fatal in this
implementation: the rethrown reset error lands in the session's error
handler, the session keeps its current step (no Done/Provisioned outcome
and no success toast), and `Transport.disconnect()` is not called — the
connection is left open.  All three scalar fields (and any asset chunks)
were written and the reset characteristic was attempted before the
failure. -/
theorem reset_failure_fatal (env : Env) (bt : BTState) (cfg : BluetoothConfig)
    (ui : SessionState) (hreg : env.reg = RegResult.ok)
    (hcfg : ∀ j, j < nWr cfg → env.writeOk j = true)
    (hrst : env.writeOk (nWr cfg) = false) :
    (handleWriteConfig env bt cfg ui).ui.errorMessage = some "重启设备失败"
    ∧ (handleWriteConfig env bt cfg ui).ui.currentStep = ui.currentStep
    ∧ Event.disconnect ∉ (handleWriteConfig env bt cfg ui).trace
    ∧ writeEvents (handleWriteConfig env bt cfg ui).trace
        = nominalWrites cfg ++ [Event.writeChar BLE_CHARACTERISTIC_RESET "RESET"]
    ∧ (∀ s, Toast.success s ∉ (handleWriteConfig env bt cfg ui).toasts)
    ∧ (handleWriteConfig env bt cfg ui).bt = bt := by
  have hwc := writeConfig_success env cfg hcfg
  have hsnone : (writeConfig env cfg 0).2.2 = none := by rw [hwc]
  have hctr : (writeConfig env cfg 0).2.1 = nWr cfg := by rw [hwc]
  have htr : (writeConfig env cfg 0).1 = cfgSuccessTrace cfg := by rw [hwc]
  refine ⟨?_, ?_, ?_, ?_, ?_, ?_⟩
  · simp [handleWriteConfig, hreg, hsnone, hctr, resetDevice, hrst]
  · simp [handleWriteConfig, hreg, hsnone, hctr, resetDevice, hrst]
  · have hnd := writeConfig_not_disconnect env cfg 0
    simp [handleWriteConfig, hreg, hsnone, hctr, resetDevice, hrst]
    exact fun hmem => hnd hmem
  · simp only [handleWriteConfig, hreg]
    simp [hsnone, hctr, resetDevice, hrst, writeEvents, List.filter_append, htr,
      isWriteEvent]
    have := writeEvents_cfgSuccessTrace cfg
    simpa [writeEvents] using this
  · intro s
    simp [handleWriteConfig, hreg, hsnone, hctr, resetDevice, hrst]
  · simp [handleWriteConfig, hreg, hsnone, hctr, resetDevice, hrst]

/-- C4 witness: concrete run with all three scalar writes succeeding and
the reset write failing. -/
theorem reset_failure_fatal_witness :
    (handleWriteConfig envResetFail btConn cfg0 ui0).ui.errorMessage = some "重启设备失败"
    ∧ Event.disconnect ∉ (handleWriteConfig envResetFail btConn cfg0 ui0).trace :=
  have h := reset_failure_fatal envResetFail btConn cfg0 ui0 rfl (by decide) (by decide)
  ⟨h.1, h.2.2.1⟩

/-! ## Claim C8 -/

/-- Progress values of a fully successful `writeConfig` run with an asset:
one third-steps weight unit per scalar field and one for the whole asset,
whose chunk progress is folded in as `(3 + chunkFraction)/4`. -/
theorem progressValues_cfgSuccessTrace (cfg : BluetoothConfig) (p : Bytes)
    (hbg : cfg.backgroundImage = some p) :
    progressValues (cfgSuccessTrace cfg)
      = [(1 : ℚ)/4, 1/2, 3/4]
        ++ (List.range (totalChunksOf p.length)).map
            (fun (j : Nat) =>
              ((3 : ℚ) + ((j : ℚ) + 1) / (totalChunksOf p.length : ℚ)) / 4)
        ++ [1] := by
  have hpv := progressValues_chunk_flatMap (fun q => (((3 : ℚ) + q) / (4 : ℚ))) p
    (totalChunksOf p.length) (totalChunksOf p.length) 0
  simp only [progressValues] at hpv
  simp [cfgSuccessTrace, hbg, progressValues, List.filterMap_append, hpv,
    List.range_eq_range']
  norm_num

/-- C8: combined transfer progress.  Per-field weight is 1 for each scalar
field and 1 for the asset regardless of its chunk count (totalSteps is 4
with an asset, 3 without).  Without an asset the combined trace is
[1/3, 2/3, 1].  With a non-empty asset the combined trace is the three
scalar fractions, then the asset chunk fractions folded in as one weight
unit, ending in 1; the whole sequence never decreases and the value 1 is
reached only at the asset's final chunk (every earlier value is below 1).
A 1300-byte asset at frame size 512 emits exactly 3 chunk-progress events
at writer fractions [1/3, 2/3, 3/3] inside its single unit of combined
weight. -/
theorem combined_progress (cfg : BluetoothConfig) (p : Bytes) :
    (cfg.backgroundImage = none →
      progressValues (writeConfig envBase cfg 0).1 = [1/3, 2/3, 1])
    ∧ (cfg.backgroundImage = some p → p ≠ [] →
        progressValues (writeConfig envBase cfg 0).1
          = [(1 : ℚ)/4, 1/2, 3/4]
            ++ (List.range (totalChunksOf p.length)).map
                (fun (j : Nat) =>
                  ((3 : ℚ) + ((j : ℚ) + 1) / (totalChunksOf p.length : ℚ)) / 4)
            ++ [1]
        ∧ List.Pairwise (· ≤ ·) (progressValues (writeConfig envBase cfg 0).1)
        ∧ (∃ front, progressValues (writeConfig envBase cfg 0).1 = front ++ [1, 1]
            ∧ ∀ x ∈ front, x < 1))
    ∧ progressValues (writeBackgroundImage envBase
          (fun q => ((3 : ℚ) + q) / (4 : ℚ)) (List.replicate 1300 0) 3).1
        = [(1 : ℚ)/3, 2/3, 1].map (fun q => ((3 : ℚ) + q) / 4) := by
  refine ⟨?_, ?_, ?_⟩
  · intro hbg
    have htr : (writeConfig envBase cfg 0).1 = cfgSuccessTrace cfg := by
      rw [writeConfig_success envBase cfg (fun j _ => rfl)]
    rw [htr]
    simp [cfgSuccessTrace, hbg, progressValues]
  · intro hbg hp
    have htr : (writeConfig envBase cfg 0).1 = cfgSuccessTrace cfg := by
      rw [writeConfig_success envBase cfg (fun j _ => rfl)]
    have hn : 0 < p.length := List.length_pos.mpr hp
    have htc : 0 < totalChunksOf p.length := by
      simp only [totalChunksOf, CHUNK_SIZE]; omega
    have hcast : (0 : ℚ) < (totalChunksOf p.length : ℚ) := by exact_mod_cast htc
    have hclosed : progressValues (writeConfig envBase cfg 0).1
        = [(1 : ℚ)/4, 1/2, 3/4]
          ++ (List.range (totalChunksOf p.length)).map
              (fun (j : Nat) =>
                ((3 : ℚ) + ((j : ℚ) + 1) / (totalChunksOf p.length : ℚ)) / 4)
          ++ [1] := by
      rw [htr, progressValues_cfgSuccessTrace cfg p hbg]
    have hf_le_one : ∀ j : Nat, j < totalChunksOf p.length →
        ((3 : ℚ) + ((j : ℚ) + 1) / (totalChunksOf p.length : ℚ)) / 4 ≤ 1 := by
      intro j hj
      have h1 : ((j : ℚ) + 1) / (totalChunksOf p.length : ℚ) ≤ 1 := by
        rw [div_le_one hcast]
        exact_mod_cast Nat.succ_le_of_lt hj
      linarith
    have hf_ge : ∀ j : Nat, (3 : ℚ) / 4
        ≤ ((3 : ℚ) + ((j : ℚ) + 1) / (totalChunksOf p.length : ℚ)) / 4 := by
      intro j
      have h2 : (0 : ℚ) ≤ ((j : ℚ) + 1) / (totalChunksOf p.length : ℚ) := by positivity
      linarith
    have hf_mono : ∀ a b : Nat, a < b →
        ((3 : ℚ) + ((a : ℚ) + 1) / (totalChunksOf p.length : ℚ)) / 4
          ≤ ((3 : ℚ) + ((b : ℚ) + 1) / (totalChunksOf p.length : ℚ)) / 4 := by
      intro a b hab
      have h3 : ((a : ℚ) + 1) / (totalChunksOf p.length : ℚ)
          ≤ ((b : ℚ) + 1) / (totalChunksOf p.length : ℚ) := by
        rw [div_le_div_iff_of_pos_right hcast]
        have : (a : ℚ) ≤ (b : ℚ) := by exact_mod_cast hab.le
        linarith
      linarith
    refine ⟨hclosed, ?_, ?_⟩
    · rw [hclosed, List.pairwise_append]
      refine ⟨?_, by simp, ?_⟩
      · rw [List.pairwise_append]
        refine ⟨by norm_num, ?_, ?_⟩
        · rw [List.pairwise_map]
          exact (List.pairwise_lt_range _).imp (fun hab => hf_mono _ _ hab)
        · intro a ha b hb
          have ha' : a ≤ 3/4 := by
            simp only [List.mem_cons, List.not_mem_nil, or_false] at ha
            rcases ha with rfl | rfl | rfl <;> norm_num
          simp only [List.mem_map, List.mem_range] at hb
          obtain ⟨j, hj, rfl⟩ := hb
          exact le_trans ha' (hf_ge j)
      · intro a ha b hb
        simp only [List.mem_singleton] at hb
        subst hb
        rcases List.mem_append.mp ha with ha3 | haM
        · simp only [List.mem_cons, List.not_mem_nil, or_false] at ha3
          rcases ha3 with rfl | rfl | rfl <;> norm_num
        · simp only [List.mem_map, List.mem_range] at haM
          obtain ⟨j, hj, rfl⟩ := haM
          exact hf_le_one j hj
    · refine ⟨[(1 : ℚ)/4, 1/2, 3/4]
          ++ (List.range (totalChunksOf p.length - 1)).map
              (fun (j : Nat) =>
                ((3 : ℚ) + ((j : ℚ) + 1) / (totalChunksOf p.length : ℚ)) / 4),
        ?_, ?_⟩
      · rw [hclosed]
        have hsplit : List.range (totalChunksOf p.length)
            = List.range (totalChunksOf p.length - 1) ++ [totalChunksOf p.length - 1] := by
          have he : totalChunksOf p.length = (totalChunksOf p.length - 1) + 1 := by omega
          nth_rewrite 1 [he]
          exact List.range_succ _
        have hfl : ((3 : ℚ) + (((totalChunksOf p.length - 1 : Nat) : ℚ) + 1)
            / (totalChunksOf p.length : ℚ)) / 4 = 1 := by
          have hc1 : ((totalChunksOf p.length - 1 : Nat) : ℚ)
              = (totalChunksOf p.length : ℚ) - 1 := by
            exact_mod_cast Nat.cast_sub htc
          rw [hc1, sub_add_cancel, div_self (by exact_mod_cast htc.ne')]
          norm_num
        rw [hsplit, List.map_append]
        simp [hfl, List.append_assoc]
      · intro x hx
        rcases List.mem_append.mp hx with hx3 | hxM
        · simp only [List.mem_cons, List.not_mem_nil, or_false] at hx3
          rcases hx3 with rfl | rfl | rfl <;> norm_num
        · simp only [List.mem_map, List.mem_range] at hxM
          obtain ⟨j, hj, rfl⟩ := hxM
          have h1 : ((j : ℚ) + 1) / (totalChunksOf p.length : ℚ) < 1 := by
            rw [div_lt_one hcast]
            have hjlt : j + 1 < totalChunksOf p.length := by omega
            exact_mod_cast hjlt
          linarith
  · have hlen : (List.replicate 1300 (0 : Nat)).length = 1300 := List.length_replicate 1300 0
    have htc3 : totalChunksOf (List.replicate 1300 (0 : Nat)).length = 3 := by
      rw [hlen]
      decide
    have hbi := writeBackgroundImage_success envBase
      (fun q => ((3 : ℚ) + q) / (4 : ℚ)) (List.replicate 1300 0) 3 (fun j _ _ => rfl)
    rw [hbi, List.range_eq_range', progressValues_chunk_flatMap, htc3]
    have hr3 : List.range' 0 3 = [0, 1, 2] := rfl
    rw [hr3]
    norm_num

/-- C8 witness: the asset-less configuration reports exactly the combined
trace [1/3, 2/3, 1]. -/
theorem combined_progress_witness :
    progressValues (writeConfig envBase cfg0 0).1 = [1/3, 2/3, 1] :=
  (combined_progress cfg0 []).1 rfl

end EchoKit
